import Mathlib

set_option maxHeartbeats 1000000

/-!
Verification model of the browser-music-downloader repository.

Shallow embedding of:
* `src/browsers/base.py`   — `_extract_video_id`, `_is_youtube_video`, `_safe_read_json`;
* `src/browsers/chrome.py` — profile discovery, binary session scan, bookmark walk;
* `src/browsers/firefox.py`— profile discovery, session-snapshot group extraction;
* `src/core/download.py` and the legacy `src/music_download.py` — the
  `download_audio` retry/fallback orchestrator;
* `src/app_logging/fragment_logger.py` — the two degradation flags.

Python strings are modelled as `String`/`List Char`, byte strings as `List Nat`,
file contents as `Option (List Nat)` (`none` = file absent), and the external
download engine (yt-dlp) as an oracle `Env` giving the outcome of each
(credential-source, client-profile, URL) attempt.  Exceptions are modelled with
`Except`/`Option` or explicit error flags.
-/

/-! ### Generic list utilities (Python `in`, `str.split`, substring search) -/

/-- Models the test that `l` starts with the needle `pre` (used to build the
Python substring operator and the byte-level regex scan). -/
def leadsWith {α : Type} [DecidableEq α] : List α → List α → Bool
  | [], _ => true
  | _ :: _, [] => false
  | a :: as, b :: bs => if a = b then leadsWith as bs else false

/-- Models Python's substring operator `needle in hay` on the underlying
character (or byte) lists. -/
def occursIn {α : Type} [DecidableEq α] (needle : List α) : List α → Bool
  | [] => decide (needle = [])
  | c :: rest => leadsWith needle (c :: rest) || occursIn needle rest

theorem leadsWith_length {α : Type} [DecidableEq α] :
    ∀ (pre l : List α), leadsWith pre l = true → pre.length ≤ l.length := by
  intro pre
  induction pre with
  | nil => intro l _; simp
  | cons a as ih =>
    intro l h
    cases l with
    | nil => simp [leadsWith] at h
    | cons b bs =>
      simp only [leadsWith] at h
      split at h
      · have := ih bs h
        simp [List.length_cons]
        omega
      · exact absurd h (by simp)

theorem leadsWith_append {α : Type} [DecidableEq α] :
    ∀ (a b l : List α), leadsWith (a ++ b) l = true → leadsWith a l = true := by
  intro a
  induction a with
  | nil => intro b l _; rfl
  | cons x xs ih =>
    intro b l h
    cases l with
    | nil => simp [leadsWith] at h
    | cons y ys =>
      simp only [List.cons_append, leadsWith] at h ⊢
      split at h
      · simp only [*, if_pos]
        exact ih b ys h
      · exact absurd h (by simp)

theorem occursIn_append {α : Type} [DecidableEq α] :
    ∀ (a b l : List α), occursIn (a ++ b) l = true → occursIn a l = true := by
  intro a b l
  induction l with
  | nil =>
    simp only [occursIn, decide_eq_true_eq]
    intro h
    rcases List.append_eq_nil.mp h with ⟨h1, _⟩
    simp [h1]
  | cons c rest ih =>
    simp only [occursIn, Bool.or_eq_true]
    rintro (h | h)
    · exact Or.inl (leadsWith_append a b (c :: rest) h)
    · exact Or.inr (ih h)

/-- Structurally recursive worker for `pySplit`.  Each step either consumes one
element of `hay` or drops a whole separator occurrence (at least one element),
so `hay.length + 1` fuel always suffices and the fuel-0 branch is unreachable
from `pySplit`. -/
def pySplitF {α : Type} [DecidableEq α] (s0 : α) (sTail : List α) :
    Nat → List α → List (List α)
  | 0, _ => [[]]
  | fuel + 1, hay =>
    if leadsWith (s0 :: sTail) hay then
      [] :: pySplitF s0 sTail fuel (hay.drop (sTail.length + 1))
    else
      match hay with
      | [] => [[]]
      | c :: rest =>
        match pySplitF s0 sTail fuel rest with
        | [] => [[c]]
        | seg :: segs => (c :: seg) :: segs

/-- Models Python `hay.split(sep)` for a non-empty separator `s0 :: sTail`:
splits on every non-overlapping occurrence, left to right, keeping empty
segments, exactly as `str.split` with an explicit separator does. -/
def pySplit {α : Type} [DecidableEq α] (s0 : α) (sTail : List α) (hay : List α) :
    List (List α) :=
  pySplitF s0 sTail (hay.length + 1) hay

/-! ### `BrowserBackend._extract_video_id` and `_is_youtube_video`
    (src/browsers/base.py lines 34-71) -/

/-- Models `re.search(r"[?&]v=([^&]+)", url)` followed by `.group(1)`:
finds the first `?`/`&` followed by `v=` and at least one non-`&` character,
and returns the maximal run of non-`&` characters after the `v=`. -/
def searchV : List Char → Option (List Char)
  | [] => none
  | c :: rest =>
    if c = '?' || c = '&' then
      match rest with
      | 'v' :: '=' :: d :: ds =>
        if d = '&' then searchV rest
        else some (d :: ds.takeWhile (fun x => decide (x ≠ '&')))
      | _ => searchV rest
    else searchV rest

/-- Models `BrowserBackend._extract_video_id` (src/browsers/base.py lines 34-43).
`url.split(sep)[1]` is the segment between the first and second occurrence of
`sep`; `.split("?")[0]` is the part before the first `?`. -/
def extractVideoId (url : String) : Option String :=
  let u := url.toList
  if occursIn ("youtube.com/watch".toList) u then
    match searchV u with
    | some v => some (String.mk v)
    | none => none
  else if occursIn ("youtu.be/".toList) u then
    some (String.mk
      (((pySplit 'y' ("outu.be/".toList) u).getD 1 []).takeWhile (fun x => decide (x ≠ '?'))))
  else if occursIn ("youtube.com/shorts/".toList) u then
    some (String.mk
      (((pySplit 's' ("horts/".toList) u).getD 1 []).takeWhile (fun x => decide (x ≠ '?'))))
  else none

/-- Models `url.replace(pat, "")` (every non-overlapping occurrence removed),
the only form of `str.replace` the source uses. -/
def removeAllOcc (s0 : Char) (sTail : List Char) (hay : List Char) : List Char :=
  (pySplit s0 sTail hay).foldl (fun acc seg => acc ++ seg) []

/-- Models `s.strip("/")`. -/
def stripSlashes (l : List Char) : List Char :=
  ((l.dropWhile (fun c => decide (c = '/'))).reverse.dropWhile
    (fun c => decide (c = '/'))).reverse

/-- Models `BrowserBackend._is_youtube_video` (src/browsers/base.py lines 45-71). -/
def isYouTubeVideo (url : String) : Bool :=
  let u := url.toList
  if url = "" then false
  else if !(occursIn ("youtube.com".toList) u) && !(occursIn ("youtu.be".toList) u) then
    false
  else if occursIn ("search_query=".toList) u || occursIn ("/results".toList) u
      || occursIn ("accounts.google".toList) u
      || occursIn ("google.com/settings".toList) u then
    false
  else
    let cleanCheck :=
      stripSlashes (removeAllOcc 'h' ("ttps://".toList) (removeAllOcc 'w' ("ww.".toList) u))
    if cleanCheck = "youtube.com".toList then false
    else occursIn ("/watch".toList) u || occursIn ("/shorts/".toList) u
      || occursIn ("youtu.be".toList) u

/-! ### The download orchestrator (`download_audio`)
    src/core/download.py lines 72-456 and src/music_download.py lines 252-640.

The external engine (yt-dlp) is abstracted as an oracle giving, for each
(credential source, client-profile index, URL) attempt, which log-detectable
degradation flags the attempt raises and how the attempt ends. -/

/-- The two browser families usable as cookie sources
(`browser_strategies = [None, "firefox", "chrome"]`). -/
inductive Browser where
  | firefox
  | chrome
deriving DecidableEq

/-- A credential-source strategy: `none` is the anonymous (no cookies) pass. -/
abbrev Strategy := Option Browser

/-- Models `player_client_configs` (src/core/download.py lines 102-106). -/
def playerClientConfigs : List (List String) :=
  [["tv", "web"], ["web"], ["ios"]]

/-- Models `use_cookies = bool(current_browser)`. -/
def useCookies (strat : Strategy) : Bool := strat.isSome

/-- Bound of the client-profile loop:
`while player_client_idx < (len(player_client_configs) if use_cookies else 1)`. -/
def clientBound (strat : Strategy) : Nat :=
  if useCookies strat then playerClientConfigs.length else 1

/-- Models the two mutable booleans of `FragmentLogger`
(src/app_logging/fragment_logger.py lines 17-18). -/
structure Flags where
  signatureSolvingFailed : Bool
  onlyImagesAvailable : Bool
deriving DecidableEq

/-- How one per-URL engine interaction ends, as classified by the
`except` clauses of the per-URL loop (src/core/download.py lines 243-338). -/
inductive EngineResult where
  /-- The call `ydl.extract_info(url, download=True)` succeeds and a file is produced. -/
  | ok
  /-- A `DownloadError` whose message contains `403` or `Forbidden`. -/
  | err403
  /-- A `DownloadError` whose message contains `Requested format is not available`. -/
  | errFormatUnavailable
  /-- A `DownloadError` whose message contains `Failed to decrypt` or `database is locked`. -/
  | errCookieAccess
  /-- any other `DownloadError`: logged, URL skipped. -/
  | errOtherDownload
  /-- A `PermissionError` (locked output file): logged, URL skipped. -/
  | errPermission
  /-- any other exception: logged, URL skipped. -/
  | errOtherException
  /-- the feasibility probe (`extract_info(download=False)`) reports a non-empty
  format list with no real audio/video formats (lines 250-277). -/
  | probeNoFormats
deriving DecidableEq

/-- What the engine does for one URL attempt: which `FragmentLogger` flags its
log lines set (the flags only ever go from `false` to `true` within a pass),
and how the attempt ends. -/
structure UrlOutcome where
  setSig : Bool
  setImg : Bool
  result : EngineResult
deriving DecidableEq

/-- The external engine as an oracle over
(credential source, client-profile index, URL). -/
structure Env where
  attempt : Strategy → Nat → String → UrlOutcome

/-- The `FatalForbiddenError` messages raised by the per-URL loop. -/
inductive Fatal where
  | forbidden403
  | fmtUnavailTryNext
  | fmtUnavailSig
  | fmtUnavailSoftBan
  | cookieAccessFailed
  | noFormatsTryNext
  | noFormatsSig
  | noFormatsRestricted
deriving DecidableEq

/-- The exact message strings given to `FatalForbiddenError`. -/
def fatalMsg : Fatal → String
  | .forbidden403 => "403 Forbidden (IP Block)"
  | .fmtUnavailTryNext => "Format Unavailable (Signature Solving Failed - Try Next Config)"
  | .fmtUnavailSig => "Format Unavailable (Signature Solving Failed)"
  | .fmtUnavailSoftBan => "Format Unavailable (Cookie Soft Ban)"
  | .cookieAccessFailed => "Cookie Access Failed (Browser Open/Encrypted)"
  | .noFormatsTryNext => "No Formats Available (Signature Solving Failed - Try Next Config)"
  | .noFormatsSig => "No Formats Available (Signature Solving Failed)"
  | .noFormatsRestricted => "No Formats Available (Video Restricted)"

/-- Classification of a `Requested format is not available` `DownloadError`
(src/core/download.py lines 304-319), read at the moment the error is caught,
with the `FragmentLogger` flags accumulated so far in this pass. -/
def classifyFormatUnavailable (sig img useCk : Bool) (idx : Nat) : Fatal :=
  if sig || img then
    if useCk && decide (idx < playerClientConfigs.length - 1) then .fmtUnavailTryNext
    else .fmtUnavailSig
  else .fmtUnavailSoftBan

/-- Classification of a probe that finds only storyboard formats
(src/core/download.py lines 262-277). -/
def classifyNoFormats (sig img useCk : Bool) (idx : Nat) : Fatal :=
  if sig || img then
    if useCk && decide (idx < playerClientConfigs.length - 1) then .noFormatsTryNext
    else .noFormatsSig
  else .noFormatsRestricted

/-- One recorded engine attempt: (credential source, client index, URL). -/
abbrev Attempt := Strategy × Nat × String

/-- Result of one iteration of `for url in remaining_urls` over the whole list
(one (strategy, client-profile) pass): final flags, the accumulated
`succeeded_in_this_pass`, the `FatalForbiddenError` that escaped the loop if
any, and the attempts actually made (skipped URLs record no attempt). -/
structure PassOut where
  flags : Flags
  succeeded : List String
  fatal : Option Fatal
  attempts : List Attempt
deriving DecidableEq

/-- Models the per-URL loop (src/core/download.py lines 245-338):
URLs already in `succeeded_in_this_pass` are skipped; `ok` appends the URL;
skip-class errors continue; fatal classifications abort the pass with the
corresponding `FatalForbiddenError`. -/
def runUrls (env : Env) (strat : Strategy) (idx : Nat) :
    Flags → List String → List String → PassOut
  | flags, succ, [] => ⟨flags, succ, none, []⟩
  | flags, succ, url :: rest =>
    if url ∈ succ then runUrls env strat idx flags succ rest
    else
      let o := env.attempt strat idx url
      let fl : Flags := ⟨flags.signatureSolvingFailed || o.setSig,
                         flags.onlyImagesAvailable || o.setImg⟩
      let att : Attempt := (strat, idx, url)
      match o.result with
      | .ok =>
        let p := runUrls env strat idx fl (succ ++ [url]) rest
        ⟨p.flags, p.succeeded, p.fatal, att :: p.attempts⟩
      | .err403 => ⟨fl, succ, some .forbidden403, [att]⟩
      | .errFormatUnavailable =>
        ⟨fl, succ,
         some (classifyFormatUnavailable fl.signatureSolvingFailed
           fl.onlyImagesAvailable (useCookies strat) idx), [att]⟩
      | .errCookieAccess => ⟨fl, succ, some .cookieAccessFailed, [att]⟩
      | .errOtherDownload =>
        let p := runUrls env strat idx fl succ rest
        ⟨p.flags, p.succeeded, p.fatal, att :: p.attempts⟩
      | .errPermission =>
        let p := runUrls env strat idx fl succ rest
        ⟨p.flags, p.succeeded, p.fatal, att :: p.attempts⟩
      | .errOtherException =>
        let p := runUrls env strat idx fl succ rest
        ⟨p.flags, p.succeeded, p.fatal, att :: p.attempts⟩
      | .probeNoFormats =>
        ⟨fl, succ,
         some (classifyNoFormats fl.signatureSolvingFailed
           fl.onlyImagesAvailable (useCookies strat) idx), [att]⟩

/-- The `except FatalForbiddenError` handler of the client-profile loop
(src/core/download.py lines 352-366): advance to the next client profile iff
the message mentions signature solving or missing formats, cookies are in use
and more profiles remain; otherwise re-raise (strategy abandoned). -/
def fatalAdvancesClient (f : Fatal) (useCk : Bool) (idx : Nat) : Bool :=
  (occursIn ("Signature Solving Failed".toList) (fatalMsg f).toList
      || occursIn ("No Formats Available".toList) (fatalMsg f).toList)
    && useCk && decide (idx < playerClientConfigs.length - 1)

/-- Result of one credential-source strategy (the whole client-profile loop):
`succeeded_in_this_pass`, whether `success = True` was set, the
`FatalForbiddenError` that escaped to the strategy handler if any, the final
`FragmentLogger` flag state, and the attempts made. -/
structure StratOut where
  succeeded : List String
  success : Bool
  fatal : Option Fatal
  flags : Flags
  attempts : List Attempt
deriving DecidableEq

/-- Models the client-profile `while` loop (src/core/download.py lines 128-374).
`flagsIn` is the `FragmentLogger` state inherited from the previous attempt; it
is overwritten by the per-attempt reset (lines 129-130).  `fuel` only bounds the
recursion; the genuine loop condition `idx < clientBound strat` is checked, and
`fuel = clientBound strat - idx` iterations always suffice because every
iteration either stops or increments `idx`. -/
def clientLoop (env : Env) (strat : Strategy) (remaining : List String) :
    Nat → Flags → Nat → List String → StratOut
  | 0, flagsIn, _, succ => ⟨succ, false, none, flagsIn, []⟩
  | fuel + 1, flagsIn, idx, succ =>
    if idx < clientBound strat then
      -- frag_logger.signature_solving_failed = False; frag_logger.only_images_available = False
      let p := runUrls env strat idx ⟨false, false⟩ succ remaining
      match p.fatal with
      | none =>
        if p.succeeded ≠ [] then ⟨p.succeeded, true, none, p.flags, p.attempts⟩
        else if useCookies strat && decide (idx < playerClientConfigs.length - 1) then
          let r := clientLoop env strat remaining fuel p.flags (idx + 1) p.succeeded
          ⟨r.succeeded, r.success, r.fatal, r.flags, p.attempts ++ r.attempts⟩
        else ⟨p.succeeded, false, none, p.flags, p.attempts⟩
      | some f =>
        if fatalAdvancesClient f (useCookies strat) idx then
          let r := clientLoop env strat remaining fuel p.flags (idx + 1) p.succeeded
          ⟨r.succeeded, r.success, r.fatal, r.flags, p.attempts ++ r.attempts⟩
        else ⟨p.succeeded, false, some f, p.flags, p.attempts⟩
    else ⟨succ, false, none, flagsIn, []⟩

/-- One credential-source strategy: `player_client_idx = 0`,
`succeeded_in_this_pass = []`, then the client-profile loop. -/
def runStrategy (env : Env) (strat : Strategy) (remaining : List String)
    (flagsIn : Flags) : StratOut :=
  clientLoop env strat remaining (clientBound strat) flagsIn 0 []

/-- Observable outcome of a whole `download_audio` run: the final value of
`remaining_urls`, the URLs for which `ydl.extract_info(download=True)`
succeeded (in success order, one produced file each), the `success` flag, and
every engine attempt in order. -/
structure RunOut where
  remaining : List String
  downloaded : List String
  success : Bool
  attempts : List Attempt
deriving DecidableEq

/-- Models `for url in succeeded_in_this_pass: if url in remaining_urls:
remaining_urls.remove(url)` — `list.remove` deletes the first occurrence. -/
def removeSucceeded (remaining succ : List String) : List String :=
  succ.foldl (fun l u => l.erase u) remaining

/-- The strategy loop of src/core/download.py (lines 112-411): succeeded URLs
are removed from `remaining_urls` at the end of each strategy, before the next
credential source runs. -/
def runStrategiesCore (env : Env) :
    List Strategy → List String → Flags → Bool → List String → RunOut
  | [], remaining, _, success, downloaded => ⟨remaining, downloaded, success, []⟩
  | strat :: rest, remaining, fl, success, downloaded =>
    if remaining = [] then ⟨remaining, downloaded, success, []⟩
    else if success then ⟨remaining, downloaded, success, []⟩
    else
      let r := runStrategy env strat remaining fl
      let remaining2 := removeSucceeded remaining r.succeeded
      let out := runStrategiesCore env rest remaining2 r.flags (success || r.success)
        (downloaded ++ r.succeeded)
      ⟨out.remaining, out.downloaded, out.success, r.attempts ++ out.attempts⟩

/-- Models `download_audio` of src/core/download.py: `remaining_urls = urls.copy()`,
`frag_logger = FragmentLogger()` (both flags start `False`), strategies
`[None, "firefox", "chrome"]`. -/
def downloadAudioCore (env : Env) (urls : List String) : RunOut :=
  runStrategiesCore env [none, some .firefox, some .chrome] urls ⟨false, false⟩ false []

/-- The strategy loop of the legacy src/music_download.py (lines 290-640):
identical except that `remaining_urls.remove` runs only once, after the whole
strategy loop, on the last strategy's `succeeded_in_this_pass` (lines 638-640).
The extra list argument carries the current value of the
`succeeded_in_this_pass` binding. -/
def runStrategiesLegacy (env : Env) :
    List Strategy → List String → Flags → Bool → List String → List String →
      RunOut × List String
  | [], remaining, _, success, downloaded, lastSucc =>
    (⟨remaining, downloaded, success, []⟩, lastSucc)
  | strat :: rest, remaining, fl, success, downloaded, lastSucc =>
    if remaining = [] then (⟨remaining, downloaded, success, []⟩, lastSucc)
    else if success then (⟨remaining, downloaded, success, []⟩, lastSucc)
    else
      let r := runStrategy env strat remaining fl
      let out := runStrategiesLegacy env rest remaining r.flags (success || r.success)
        (downloaded ++ r.succeeded) r.succeeded
      (⟨out.1.remaining, out.1.downloaded, out.1.success, r.attempts ++ out.1.attempts⟩,
        out.2)

/-- Models `download_audio` of the legacy src/music_download.py. -/
def downloadAudioLegacy (env : Env) (urls : List String) : RunOut :=
  let out := runStrategiesLegacy env [none, some .firefox, some .chrome] urls
    ⟨false, false⟩ false [] []
  ⟨removeSucceeded out.1.remaining out.2, out.1.downloaded, out.1.success, out.1.attempts⟩

/-! ### The caller's `urls` list as an explicit store cell (frame condition)

`download_audio` receives `urls`, copies it into `remaining_urls`
(src/core/download.py line 110) and mutates only the copy (lines 409-411).
`PyMem` makes the two list cells explicit so the frame condition is a theorem
about which cell the orchestrator writes. -/

structure PyMem where
  urlsVar : List String
  remainingVar : List String
deriving DecidableEq

/-- The strategy loop of src/core/download.py threaded through the two-cell
store: identical to `runStrategiesCore`, with every read of `remaining_urls`
and the `remove` mutation going through `remainingVar`; `urlsVar` has no
writer. -/
def runStrategiesCoreMem (env : Env) :
    List Strategy → PyMem → Flags → Bool → List String → PyMem × RunOut
  | [], mem, _, success, downloaded =>
    (mem, ⟨mem.remainingVar, downloaded, success, []⟩)
  | strat :: rest, mem, fl, success, downloaded =>
    if mem.remainingVar = [] then (mem, ⟨mem.remainingVar, downloaded, success, []⟩)
    else if success then (mem, ⟨mem.remainingVar, downloaded, success, []⟩)
    else
      let r := runStrategy env strat mem.remainingVar fl
      let mem2 : PyMem := ⟨mem.urlsVar, removeSucceeded mem.remainingVar r.succeeded⟩
      let out := runStrategiesCoreMem env rest mem2 r.flags (success || r.success)
        (downloaded ++ r.succeeded)
      (out.1, ⟨out.2.remaining, out.2.downloaded, out.2.success, r.attempts ++ out.2.attempts⟩)

/-- Models `download_audio` over the explicit store: `remaining_urls = urls.copy()`
allocates a fresh cell holding the same list. -/
def downloadAudioCoreMem (env : Env) (urls : List String) : PyMem × RunOut :=
  runStrategiesCoreMem env [none, some .firefox, some .chrome] ⟨urls, urls⟩
    ⟨false, false⟩ false []

/-! ### Concrete engine oracles used by the claim theorems -/

/-- Engine for C1: the anonymous pass downloads `u1`, then gets a 403 on `u2`
(strategy aborted with `success` still `False`); under Firefox cookies `u1`
downloads again and `u2` fails with an ordinary skip-class error. -/
def envC1 : Env :=
  ⟨fun strat _ url =>
    match strat, url with
    | none, "u1" => ⟨false, false, .ok⟩
    | none, _ => ⟨false, false, .err403⟩
    | some .firefox, "u1" => ⟨false, false, .ok⟩
    | some _, _ => ⟨false, false, .errOtherDownload⟩⟩

/-- Engine for C2's witness: every attempt raises a format-unavailable
`DownloadError` after log lines that set the signature-solving flag. -/
def envC2 : Env := ⟨fun _ _ _ => ⟨true, false, .errFormatUnavailable⟩⟩

/-- Engine for C3's scenario: the anonymous strategy fails with format
unavailable; Firefox fails its first client profile with a signature-solving
degradation and succeeds on every URL under its second profile. -/
def envC3s : Env :=
  ⟨fun strat idx _ =>
    match strat, idx with
    | none, _ => ⟨false, false, .errFormatUnavailable⟩
    | some .firefox, 0 => ⟨true, false, .errFormatUnavailable⟩
    | some .firefox, _ => ⟨false, false, .ok⟩
    | some .chrome, _ => ⟨false, false, .errOtherDownload⟩⟩

/-- Engine for C3's counterexample: the anonymous strategy downloads `u1` and
then hits a 403 on `u2`; every cookie-bearing attempt fails with a skip-class
error. -/
def envC3x : Env :=
  ⟨fun strat _ url =>
    match strat, url with
    | none, "u1" => ⟨false, false, .ok⟩
    | none, _ => ⟨false, false, .err403⟩
    | some _, _ => ⟨false, false, .errOtherDownload⟩⟩

/-- Engine for C5: under Firefox cookies the first client profile raises
format-unavailable with the signature-solving flag set; the second profile
raises format-unavailable with no degradation log lines at all. -/
def envC5 : Env :=
  ⟨fun strat idx _ =>
    match strat, idx with
    | some .firefox, 0 => ⟨true, false, .errFormatUnavailable⟩
    | some .firefox, _ => ⟨false, false, .errFormatUnavailable⟩
    | _, _ => ⟨false, false, .errOtherDownload⟩⟩

/-- Engine for C10: the anonymous pass downloads `u1` and skips `u2`, so the
run mutates `remaining_urls` without touching the caller's `urls`. -/
def envC10 : Env :=
  ⟨fun strat _ url =>
    match strat, url with
    | none, "u1" => ⟨false, false, .ok⟩
    | _, _ => ⟨false, false, .errOtherDownload⟩⟩

/-- Which fatal messages contain `Signature Solving Failed` or
`No Formats Available` (evaluated once per constructor). -/
def fatalKeyword : Fatal → Bool
  | .forbidden403 => false
  | .fmtUnavailSoftBan => false
  | .cookieAccessFailed => false
  | _ => true

theorem fatalAdvancesClient_eval (f : Fatal) (uc : Bool) (idx : Nat) :
    fatalAdvancesClient f uc idx = (fatalKeyword f && uc && decide (idx < 2)) := by
  cases f <;> rfl

/-! ### Claim theorems: the orchestrator -/

/-- C1.  The claim says a URL that succeeds under one configuration is removed
from the remaining-URL set before any later credential-source strategy runs and
is never attempted again.  src/core/download.py (removal at lines 409-411,
inside the strategy loop) satisfies this, but the legacy
src/music_download.py places the same removal after the whole strategy loop
(lines 638-640), so when the anonymous strategy downloads `u1` and is then
aborted by a 403 on `u2`, the Firefox strategy re-attempts and re-downloads
`u1` (`downloaded = [u1, u1]`, a second `(firefox, 0, u1)` attempt); the core
refactoring of the very same loop removes `u1` first and never re-attempts it. -/
theorem c1_legacy_reattempts_succeeded_url :
    downloadAudioLegacy envC1 ["u1", "u2"] =
      ⟨["u2"], ["u1", "u1"], true,
        [(none, 0, "u1"), (none, 0, "u2"),
         (some Browser.firefox, 0, "u1"), (some Browser.firefox, 0, "u2")]⟩
    ∧ downloadAudioCore envC1 ["u1", "u2"] =
      ⟨["u2"], ["u1"], false,
        [(none, 0, "u1"), (none, 0, "u2"),
         (some Browser.firefox, 0, "u2"), (some Browser.firefox, 1, "u2"),
         (some Browser.firefox, 2, "u2"),
         (some Browser.chrome, 0, "u2"), (some Browser.chrome, 1, "u2"),
         (some Browser.chrome, 2, "u2")]⟩ :=
  ⟨rfl, rfl⟩

/-- C2.  Under a credential-bearing strategy, a pass aborted by a
format-unavailable `DownloadError`: with a degradation flag set and more client
profiles remaining, the loop advances the client-profile index and retries the
same remaining-URL set; with a flag set but no profiles remaining, the
strategy is abandoned; with no degradation flag set, the strategy is abandoned
immediately whatever the index. -/
theorem c2_format_unavailable_fallback (env : Env) (b : Browser)
    (remaining succ : List String) (idx fuel : Nat) (flagsIn : Flags)
    (fl : Flags) (s2 : List String) (tr : List Attempt)
    (hidx : idx < clientBound (some b))
    (hrun : runUrls env (some b) idx ⟨false, false⟩ succ remaining =
      ⟨fl, s2,
       some (classifyFormatUnavailable fl.signatureSolvingFailed
         fl.onlyImagesAvailable true idx), tr⟩) :
    ((fl.signatureSolvingFailed || fl.onlyImagesAvailable) = true →
      (idx < playerClientConfigs.length - 1 →
        clientLoop env (some b) remaining (fuel + 1) flagsIn idx succ =
          (let r := clientLoop env (some b) remaining fuel fl (idx + 1) s2
           ⟨r.succeeded, r.success, r.fatal, r.flags, tr ++ r.attempts⟩))
      ∧ (playerClientConfigs.length - 1 ≤ idx →
        clientLoop env (some b) remaining (fuel + 1) flagsIn idx succ =
          ⟨s2, false, some .fmtUnavailSig, fl, tr⟩))
    ∧ ((fl.signatureSolvingFailed || fl.onlyImagesAvailable) = false →
      clientLoop env (some b) remaining (fuel + 1) flagsIn idx succ =
        ⟨s2, false, some .fmtUnavailSoftBan, fl, tr⟩) := by
  constructor
  · intro hflag
    constructor
    · intro hlt
      have hlt2 : idx < 2 := by simpa [playerClientConfigs] using hlt
      have hcls : classifyFormatUnavailable fl.signatureSolvingFailed
          fl.onlyImagesAvailable true idx = .fmtUnavailTryNext := by
        simp [classifyFormatUnavailable, hflag, hlt]
      rw [hcls] at hrun
      have hadv : fatalAdvancesClient .fmtUnavailTryNext (useCookies (some b)) idx = true := by
        rw [fatalAdvancesClient_eval]
        simp [useCookies, fatalKeyword, hlt2]
      simp only [clientLoop, if_pos hidx, hrun, hadv, if_pos]
    · intro hge
      have hnlt : ¬ idx < playerClientConfigs.length - 1 := by omega
      have hnlt2 : ¬ idx < 2 := by simpa [playerClientConfigs] using hnlt
      have hcls : classifyFormatUnavailable fl.signatureSolvingFailed
          fl.onlyImagesAvailable true idx = .fmtUnavailSig := by
        simp [classifyFormatUnavailable, hflag, hnlt]
      rw [hcls] at hrun
      have hadv : fatalAdvancesClient .fmtUnavailSig (useCookies (some b)) idx = false := by
        rw [fatalAdvancesClient_eval]
        simp [hnlt2]
      simp only [clientLoop, if_pos hidx, hrun, hadv, Bool.false_eq_true, if_neg,
        not_false_eq_true]
  · intro hflag
    have hcls : classifyFormatUnavailable fl.signatureSolvingFailed
        fl.onlyImagesAvailable true idx = .fmtUnavailSoftBan := by
      simp [classifyFormatUnavailable, hflag]
    rw [hcls] at hrun
    have hadv : fatalAdvancesClient .fmtUnavailSoftBan (useCookies (some b)) idx = false := by
      rw [fatalAdvancesClient_eval]
      simp [fatalKeyword]
    simp only [clientLoop, if_pos hidx, hrun, hadv, Bool.false_eq_true, if_neg,
      not_false_eq_true]

/-- Witness for C2 at a concrete engine: Firefox cookies, client index 0, one
URL whose attempt raises format-unavailable with the signature flag set; the
loop steps to index 1 over the same URL set. -/
theorem c2_format_unavailable_fallback_witness :
    clientLoop envC2 (some Browser.firefox) ["u"] 3 ⟨false, false⟩ 0 [] =
      (let r := clientLoop envC2 (some Browser.firefox) ["u"] 2 ⟨true, false⟩ 1 []
       ⟨r.succeeded, r.success, r.fatal, r.flags,
        [(some Browser.firefox, 0, "u")] ++ r.attempts⟩) :=
  ((c2_format_unavailable_fallback envC2 .firefox ["u"] [] 0 2 ⟨false, false⟩
      ⟨true, false⟩ [] [(some Browser.firefox, 0, "u")]
      (by decide) rfl).1 rfl).1 (by decide)

/-- C3 counterexample.  The claim says the strategy loop "stops as soon as one
strategy yields at least one successful download".  Here the anonymous
strategy downloads `u1` (it appears in `downloaded`) but is then aborted by a
403 on `u2` before the pass completes, so `success` is never set and both
Firefox and Chrome are still attempted afterwards — the loop did not stop. -/
theorem c3_counterexample_fatal_after_success :
    downloadAudioCore envC3x ["u1", "u2"] =
      ⟨["u2"], ["u1"], false,
        [(none, 0, "u1"), (none, 0, "u2"),
         (some Browser.firefox, 0, "u2"), (some Browser.firefox, 1, "u2"),
         (some Browser.firefox, 2, "u2"),
         (some Browser.chrome, 0, "u2"), (some Browser.chrome, 1, "u2"),
         (some Browser.chrome, 2, "u2")]⟩ := rfl

/-- C3 (amended).  The strategy loop stops at the end of the first strategy
whose client-profile pass completes with at least one successful download
(that is what sets the `success` flag); once `success` is set no further
credential-source strategy makes any attempt.  In the concrete scenario —
3 URLs, anonymous strategy failing with format-unavailable, Firefox failing
its first client profile and succeeding on all three URLs under its second —
Chrome is never attempted and three files are downloaded. -/
theorem c3_strategy_loop_stops_on_success :
    (∀ (env : Env) (ss : List Strategy) (remaining : List String) (fl : Flags)
        (dl : List String),
      runStrategiesCore env ss remaining fl true dl = ⟨remaining, dl, true, []⟩)
    ∧ downloadAudioCore envC3s ["u1", "u2", "u3"] =
      ⟨[], ["u1", "u2", "u3"], true,
        [(none, 0, "u1"),
         (some Browser.firefox, 0, "u1"), (some Browser.firefox, 1, "u1"),
         (some Browser.firefox, 1, "u2"), (some Browser.firefox, 1, "u3")]⟩ := by
  constructor
  · intro env ss remaining fl dl
    cases ss with
    | nil => rfl
    | cons s rest =>
      simp only [runStrategiesCore]
      split
      · rfl
      · rfl
  · rfl

/-- C5.  The fragment monitor's two booleans are reset at the start of every
(credential source, client profile) attempt: whenever the client-profile loop
actually executes an attempt, its behaviour is independent of the flag state
inherited from the previous attempt.  Concretely, starting Firefox with a
dirty flag state, attempt 0 sets the signature flag (advancing the profile
index), and attempt 1 begins with it cleared: its format-unavailable error is
classified `Cookie Soft Ban` — the classification a leaked flag would have
turned into `Signature Solving Failed`. -/
theorem c5_fragment_flags_reset_between_attempts :
    (∀ (env : Env) (strat : Strategy) (remaining succ : List String)
        (fuel idx : Nat) (f1 f2 : Flags),
      idx < clientBound strat → 0 < fuel →
      clientLoop env strat remaining fuel f1 idx succ =
        clientLoop env strat remaining fuel f2 idx succ)
    ∧ runStrategy envC5 (some Browser.firefox) ["u"] ⟨true, true⟩ =
      ⟨[], false, some .fmtUnavailSoftBan, ⟨false, false⟩,
        [(some Browser.firefox, 0, "u"), (some Browser.firefox, 1, "u")]⟩ := by
  constructor
  · intro env strat remaining succ fuel idx f1 f2 hidx hfuel
    match fuel, hfuel with
    | fuel + 1, _ =>
      simp only [clientLoop, if_pos hidx]
  · rfl

/-- Witness for C5's universal part: with a dirty versus a clean inherited
flag state, the Firefox client-profile loop computes the same result. -/
theorem c5_fragment_flags_reset_witness :
    clientLoop envC5 (some Browser.firefox) ["u"] 3 ⟨true, true⟩ 0 [] =
      clientLoop envC5 (some Browser.firefox) ["u"] 3 ⟨false, false⟩ 0 [] :=
  c5_fragment_flags_reset_between_attempts.1 envC5 (some Browser.firefox) ["u"] [] 3 0
    ⟨true, true⟩ ⟨false, false⟩ (by decide) (by decide)

/-- C10.  The caller's `urls` list cell is never written: the orchestrator
copies it into `remaining_urls` (line 110) and every removal (lines 409-411)
targets the copy, so after any run the argument holds the same URLs in the
same order.  The concrete run shows the copy really is mutated
(`remainingVar` shrinks to `["u2"]`) while `urlsVar` still holds the original
list. -/
theorem c10_caller_urls_unchanged :
    (∀ (env : Env) (ss : List Strategy) (mem : PyMem) (fl : Flags) (success : Bool)
        (dl : List String),
      ((runStrategiesCoreMem env ss mem fl success dl).1).urlsVar = mem.urlsVar)
    ∧ (∀ (env : Env) (urls : List String),
      ((downloadAudioCoreMem env urls).1).urlsVar = urls)
    ∧ (downloadAudioCoreMem envC10 ["u1", "u2"]).1 = ⟨["u1", "u2"], ["u2"]⟩ := by
  have main : ∀ (env : Env) (ss : List Strategy) (mem : PyMem) (fl : Flags)
      (success : Bool) (dl : List String),
      ((runStrategiesCoreMem env ss mem fl success dl).1).urlsVar = mem.urlsVar := by
    intro env ss
    induction ss with
    | nil => intro mem fl success dl; rfl
    | cons s rest ih =>
      intro mem fl success dl
      simp only [runStrategiesCoreMem]
      split
      · rfl
      · split
        · rfl
        · exact ih _ _ _ _
  refine ⟨main, fun env urls => main env _ _ _ _ _, rfl⟩

/-! ### Claim theorems: the video-identity extractor -/

/-- C6 counterexample.  The claim says every URL rejected by the shared video
predicate yields no identity.  This URL is rejected by `_is_youtube_video`
(it contains `search_query=`) yet `_extract_video_id` still returns `abc`. -/
theorem c6_counterexample_rejected_url_has_id :
    isYouTubeVideo "https://www.youtube.com/watch?v=abc&search_query=x" = false
    ∧ extractVideoId "https://www.youtube.com/watch?v=abc&search_query=x" = some "abc" :=
  ⟨rfl, rfl⟩

/-- C6 (amended).  The extractor is a pure function (same URL, same result),
and every URL containing neither `youtube.com` nor `youtu.be` — which the
video predicate therefore rejects — yields no identity.  (For YouTube URLs
rejected by the predicate's exclusion list the extractor may still return an
identity, as the counterexample shows.) -/
theorem c6_extractor_pure_and_none_without_domain (url : String)
    (h1 : occursIn ("youtube.com".toList) url.toList = false)
    (h2 : occursIn ("youtu.be".toList) url.toList = false) :
    extractVideoId url = extractVideoId url
    ∧ isYouTubeVideo url = false
    ∧ extractVideoId url = none := by
  have hw : occursIn ("youtube.com/watch".toList) url.toList = false := by
    have hsplit : ("youtube.com/watch".toList) =
        ("youtube.com".toList ++ "/watch".toList) := by decide
    rw [hsplit]
    cases h : occursIn ("youtube.com".toList ++ "/watch".toList) url.toList with
    | false => rfl
    | true =>
      rw [occursIn_append _ _ _ h] at h1
      exact absurd h1 (by decide)
  have hb : occursIn ("youtu.be/".toList) url.toList = false := by
    have hsplit : ("youtu.be/".toList) = ("youtu.be".toList ++ "/".toList) := by decide
    rw [hsplit]
    cases h : occursIn ("youtu.be".toList ++ "/".toList) url.toList with
    | false => rfl
    | true =>
      rw [occursIn_append _ _ _ h] at h2
      exact absurd h2 (by decide)
  have hs : occursIn ("youtube.com/shorts/".toList) url.toList = false := by
    have hsplit : ("youtube.com/shorts/".toList) =
        ("youtube.com".toList ++ "/shorts/".toList) := by decide
    rw [hsplit]
    cases h : occursIn ("youtube.com".toList ++ "/shorts/".toList) url.toList with
    | false => rfl
    | true =>
      rw [occursIn_append _ _ _ h] at h1
      exact absurd h1 (by decide)
  refine ⟨rfl, ?_, ?_⟩
  · unfold isYouTubeVideo
    simp only [h1, h2]
    split
    · rfl
    · rfl
  · unfold extractVideoId
    simp only [hw, hb, hs]
    rfl

/-- Witness for C6 at a concrete non-YouTube URL. -/
theorem c6_extractor_witness :
    extractVideoId "http://example.com" = extractVideoId "http://example.com"
    ∧ isYouTubeVideo "http://example.com" = false
    ∧ extractVideoId "http://example.com" = none :=
  c6_extractor_pure_and_none_without_domain "http://example.com" (by decide) (by decide)

/-! ### `BrowserBackend._safe_read_json` (src/browsers/base.py lines 73-102)
    and the Firefox candidate-file loop (src/browsers/firefox.py lines 53-66).

The LZ4 block decompressor and the JSON parser (including the UTF-8 decode of
the raw bytes) are external collaborators, abstracted as functions that may
fail; `J` is the type of parsed JSON values and `truthy` models Python's truth
test on them. -/

/-- The 7 bytes of `b"mozLz40"` checked by `content.startswith(b"mozLz40")`;
the full on-disk magic header is 8 bytes and `content[8:]` skips all 8. -/
def mozMagic : List Nat := [109, 111, 122, 76, 122, 52, 48]

/-- Models `_safe_read_json`: `none` input means the path does not exist.  A
content starting with the 7-byte prefix is decompressed from byte 8 on and
parsed, any failure giving `none`; any other content is parsed directly as
JSON, any failure giving `none`. -/
def safeReadJson {J : Type} (dec : List Nat → Option (List Nat))
    (parse : List Nat → Option J) (file : Option (List Nat)) : Option J :=
  match file with
  | none => none
  | some content =>
    if content.take 7 = mozMagic then
      match dec (content.drop 8) with
      | some payload => parse payload
      | none => none
    else parse content

/-- Models the Firefox candidate loop: `for f in files: json_data =
self._safe_read_json(f); if json_data: break` followed by `if not json_data:
return {}` — the first candidate whose read yields a truthy value wins, and a
falsy (or failed) read falls through to the next candidate. -/
def readFirstTruthy {J π : Type} (read : π → Option J) (truthy : J → Bool) :
    List π → Option J
  | [] => none
  | f :: rest =>
    match read f with
    | some j => if truthy j then some j else readFirstTruthy read truthy rest
    | none => readFirstTruthy read truthy rest

/-- Concrete decompressor for the C7 counterexample: accepts the one-byte
payload `[1]`, producing `[49]`. -/
def decX : List Nat → Option (List Nat) :=
  fun payload => if payload = [1] then some [49] else none

/-- Concrete parser for the C7 counterexample: `[123, 125]` (the bytes of
`{}`) parses to `0` (a falsy empty object) and `[49]` (the bytes of `1`)
parses to `7`; `J` is `Nat` with Python truthiness `n ≠ 0`. -/
def parseX : List Nat → Option Nat :=
  fun content =>
    if content = [123, 125] then some 0
    else if content = [49] then some 7 else none

/-- Concrete per-candidate reader for the C7 counterexample: candidate `0` is
a file parsing to the falsy `0`, candidate `1` parses to `7`. -/
def readX : Nat → Option Nat :=
  fun f => if f = 0 then some 0 else some 7

/-- C7 counterexample.  Three ways the claim's reading contract fails on the
code: (i) a content whose 8th byte is arbitrary (here `88`) still passes the
startswith check — only 7 of the 8 magic bytes are validated — and is
decompressed and parsed; (ii) a header mismatch does not return "no data":
plain JSON content is parsed and returned; (iii) the candidate loop does not
return the first *successful* parse: a candidate parsing to a falsy (empty)
value is skipped in favour of a later candidate. -/
theorem c7_counterexample_reader_contract :
    safeReadJson decX parseX (some (mozMagic ++ [88, 1])) = some 7
    ∧ (mozMagic ++ [88, 1]).take 8 ≠ mozMagic ++ [0]
    ∧ safeReadJson decX parseX (some [123, 125]) = some 0
    ∧ readFirstTruthy readX (fun n => decide (n ≠ 0)) [0, 1] = some 7 :=
  ⟨rfl, by decide, rfl, rfl⟩

/-- C7 (amended).  `_safe_read_json` checks the 7-byte prefix `mozLz40` of the
8-byte magic header; on a match it decompresses the remainder (skipping all 8
header bytes) and parses it as JSON, with every decompression/parse failure —
and an absent file — yielding "no data"; on a mismatch it falls back to
parsing the raw content as JSON (again `none` on failure).  The Firefox caller
walks its ordered candidate list and returns the first read that yields a
truthy value, skipping failed and falsy reads. -/
theorem c7_safe_read_json_contract {J π : Type} (dec : List Nat → Option (List Nat))
    (parse : List Nat → Option J) (truthy : J → Bool) (read : π → Option J) :
    safeReadJson dec parse none = none
    ∧ (∀ content, content.take 7 = mozMagic →
        safeReadJson dec parse (some content) =
          (match dec (content.drop 8) with
           | some payload => parse payload
           | none => none))
    ∧ (∀ content, content.take 7 ≠ mozMagic →
        safeReadJson dec parse (some content) = parse content)
    ∧ readFirstTruthy read truthy [] = none
    ∧ (∀ (f : π) (rest : List π) (j : J), read f = some j → truthy j = true →
        readFirstTruthy read truthy (f :: rest) = some j)
    ∧ (∀ (f : π) (rest : List π) (j : J), read f = some j → truthy j = false →
        readFirstTruthy read truthy (f :: rest) = readFirstTruthy read truthy rest)
    ∧ (∀ (f : π) (rest : List π), read f = none →
        readFirstTruthy read truthy (f :: rest) = readFirstTruthy read truthy rest) := by
  refine ⟨rfl, ?_, ?_, rfl, ?_, ?_, ?_⟩
  · intro content h
    simp [safeReadJson, h]
  · intro content h
    simp [safeReadJson, h]
  · intro f rest j hf ht
    simp [readFirstTruthy, hf, ht]
  · intro f rest j hf ht
    simp [readFirstTruthy, hf, ht]
  · intro f rest hf
    simp [readFirstTruthy, hf]

/-- Witness for C7 at the concrete decompressor/parser/reader. -/
theorem c7_safe_read_json_witness :
    safeReadJson decX parseX (some (mozMagic ++ [88, 1])) =
      (match decX ((mozMagic ++ [88, 1]).drop 8) with
       | some payload => parseX payload
       | none => none)
    ∧ safeReadJson decX parseX (some [123, 125]) = parseX [123, 125]
    ∧ readFirstTruthy readX (fun n => decide (n ≠ 0)) [0, 1] =
        readFirstTruthy readX (fun n => decide (n ≠ 0)) [1] :=
  ⟨(c7_safe_read_json_contract decX parseX (fun n => decide (n ≠ 0)) readX).2.1
      (mozMagic ++ [88, 1]) (by decide),
   (c7_safe_read_json_contract decX parseX (fun n => decide (n ≠ 0)) readX).2.2.1
      [123, 125] (by decide),
   (c7_safe_read_json_contract decX parseX (fun n => decide (n ≠ 0)) readX).2.2.2.2.2.1
      0 [1] 0 rfl rfl⟩

/-! ### Parsed JSON values and the Python operations the extractors use

`json.loads` yields nested dicts/lists/strings/numbers/booleans/None.  The
extractors traverse these values dynamically; operations that would raise a
Python `TypeError`/`AttributeError`/`KeyError` are modelled as `Except Unit`
errors (or an explicit error flag where the source catches exceptions). -/

mutual
inductive Json where
  | null
  | bool (b : Bool)
  | num (n : Int)
  | str (s : String)
  | arr (elems : JList)
  | obj (fields : JFields)
deriving DecidableEq
inductive JList where
  | nil
  | cons (hd : Json) (tl : JList)
deriving DecidableEq
inductive JFields where
  | nil
  | cons (key : String) (val : Json) (tl : JFields)
deriving DecidableEq
end

/-- Builds a `JList` from a Lean list (for concrete trees). -/
def jlOf : List Json → JList
  | [] => .nil
  | j :: tl => .cons j (jlOf tl)

/-- Builds a `JFields` from a Lean association list (for concrete trees). -/
def jfOf : List (String × Json) → JFields
  | [] => .nil
  | (k, v) :: tl => .cons k v (jfOf tl)

/-- Dictionary lookup.  Objects produced by `json.loads` have unique keys, so
first-match lookup models them exactly. -/
def jfGetOpt : JFields → String → Option Json
  | .nil, _ => none
  | .cons k v tl, key => if k = key then some v else jfGetOpt tl key

/-- Number of entries of an object. -/
def jfLen : JFields → Nat
  | .nil => 0
  | .cons _ _ tl => 1 + jfLen tl

/-- The keys of an object, as the values Python's iteration over a dict
yields. -/
def jfKeys : JFields → JList
  | .nil => .nil
  | .cons k _ tl => .cons (.str k) (jfKeys tl)

/-- Length of a JSON array. -/
def jlLen : JList → Nat
  | .nil => 0
  | .cons _ tl => 1 + jlLen tl

/-- Element of a JSON array at an in-range index. -/
def jlGetD : JList → Nat → Json
  | .nil, _ => .null
  | .cons h _, 0 => h
  | .cons _ tl, n + 1 => jlGetD tl n

/-- Membership of a value in a JSON array (Python `x in list`). -/
def jlContains : JList → Json → Bool
  | .nil, _ => false
  | .cons h tl, x => decide (h = x) || jlContains tl x

/-- The one-character strings Python yields when iterating over a string. -/
def strChars (s : String) : JList :=
  s.toList.foldr (fun c acc => JList.cons (.str (String.mk [c])) acc) .nil

/-- Python truthiness of a parsed JSON value. -/
def jTruthy : Json → Bool
  | .null => false
  | .bool b => b
  | .num n => decide (n ≠ 0)
  | .str s => decide (s ≠ "")
  | .arr .nil => false
  | .arr _ => true
  | .obj .nil => false
  | .obj _ => true

/-- Whether a parsed JSON value is hashable (usable as a dict key): lists and
dicts raise `TypeError: unhashable type`. -/
def jHashable : Json → Bool
  | .arr _ => false
  | .obj _ => false
  | _ => true

/-- Models Python `str(x)` for the values that can reach the `groupId`
conversion.  Containers are unhashable as stored keys, so only the rendering
of scalars can influence a lookup; the container rendering here is a
placeholder standing for Python's repr of the container. -/
def pyStr : Json → String
  | .str s => s
  | .num n => toString n
  | .bool b => if b then "True" else "False"
  | .null => "None"
  | .arr _ => "<list-repr>"
  | .obj _ => "<dict-repr>"

/-- Models Python `key in j` for a string key: key membership on dicts,
element equality on lists, substring on strings, `TypeError` otherwise. -/
def pyContains (j : Json) (key : String) : Except Unit Bool :=
  match j with
  | .obj f => .ok (jfGetOpt f key).isSome
  | .arr l => .ok (jlContains l (.str key))
  | .str s => .ok (occursIn key.toList s.toList)
  | _ => .error ()

/-- Models Python `j[key]` for a string key: dict lookup (`KeyError` when
absent), `TypeError` on lists/strings and everything else. -/
def pySubscriptStr (j : Json) (key : String) : Except Unit Json :=
  match j with
  | .obj f =>
    match jfGetOpt f key with
    | some v => .ok v
    | none => .error ()
  | _ => .error ()

/-- Models Python `j.get(key)` / `j.get(key, default)` (the caller applies the
default): `AttributeError` on anything that is not a dict. -/
def pyGet (j : Json) (key : String) : Except Unit (Option Json) :=
  match j with
  | .obj f => .ok (jfGetOpt f key)
  | _ => .error ()

/-- Models Python iteration `for x in j`: array elements, string characters,
dict keys; `TypeError` otherwise. -/
def pyIter (j : Json) : Except Unit JList :=
  match j with
  | .arr l => .ok l
  | .str s => .ok (strChars s)
  | .obj f => .ok (jfKeys f)
  | _ => .error ()

/-- Models `j - 1` as applied to `tab.get("index", 1)`: `bool` is an `int` in
Python; anything else raises `TypeError`. -/
def pyMinus1 (j : Json) : Except Unit Int :=
  match j with
  | .num n => .ok (n - 1)
  | .bool b => .ok ((if b then 1 else 0) - 1)
  | _ => .error ()

/-- Models Python `len(j)`: `TypeError` on scalars. -/
def pyLen (j : Json) : Except Unit Int :=
  match j with
  | .arr l => .ok (jlLen l)
  | .str s => .ok s.length
  | .obj f => .ok (jfLen f)
  | _ => .error ()

/-- Models Python `j[i]` for an integer index already checked to satisfy
`0 ≤ i < len(j)`: array element, one-character string, `KeyError`/`TypeError`
otherwise (a parsed dict has string keys, so an integer subscript fails). -/
def pyIndex (j : Json) (i : Int) : Except Unit Json :=
  match j with
  | .arr l => .ok (jlGetD l i.toNat)
  | .str s => .ok (.str (String.mk [s.toList.getD i.toNat ' ']))
  | _ => .error ()

/-- Python `dict.get` yields `None` when the key is
absent. -/
def jOfOpt (o : Option Json) : Json := o.getD .null

/-- Python `a or b` on parsed values (`a` if truthy else `b`). -/
def pyOrJ (a b : Json) : Json := if jTruthy a then a else b

/-- Models `self._is_youtube_video(url)` applied to an arbitrary parsed value:
the predicate first short-circuits falsy values to `False`; a truthy non-string
then raises `TypeError` at its first `in` test. -/
def jIsYouTube (u : Json) : Except Unit Bool :=
  if jTruthy u then
    match u with
    | .str s => .ok (isYouTubeVideo s)
    | _ => .error ()
  else .ok false

/-! ### `FirefoxBrowser.extract_groups` (src/browsers/firefox.py lines 51-113)

Group dictionaries are keyed by whatever parsed value names the group, so the
accumulators are association lists with `Json` keys (Python dicts preserve
insertion order). -/

/-- Python `organized_groups[name].append(url)` preceded by
`if name not in organized_groups: organized_groups[name] = []`:
append to the existing entry or add a new group at the end. -/
def addToGroupJ : List (Json × List String) → Json → String → List (Json × List String)
  | [], k, url => [(k, [url])]
  | (k0, us) :: rest, k, url =>
    if k0 = k then (k0, us ++ [url]) :: rest
    else (k0, us) :: addToGroupJ rest k url

/-- Dict assignment `group_metadata[g_id] = g_title` (replace or append). -/
def metaInsert : List (Json × Json) → Json → Json → List (Json × Json)
  | [], k, v => [(k, v)]
  | (k0, v0) :: tl, k, v =>
    if k0 = k then (k0, v) :: tl else (k0, v0) :: metaInsert tl k v

/-- Dict lookup in `group_metadata` (keys are unique by construction). -/
def metaLookup : List (Json × Json) → Json → Option Json
  | [], _ => none
  | (k0, v0) :: tl, k => if k0 = k then some v0 else metaLookup tl k

/-- The `for g in raw_groups` loop (firefox.py lines 78-82): collect
`group_metadata[g_id] = g_title`; a non-dict entry raises at `g.get`, an
unhashable truthy `g_id` raises at the dict assignment. -/
def buildGroupMeta : JList → List (Json × Json) → Except Unit (List (Json × Json))
  | .nil, meta => .ok meta
  | .cons g tl, meta => do
    let gid ← pyGet g "id"
    let title ← pyGet g "title"
    let name ← pyGet g "name"
    let gTitle := pyOrJ (pyOrJ (jOfOpt title) (jOfOpt name)) (.str "Untitled Group")
    if jTruthy (jOfOpt gid) then
      match gid with
      | some k =>
        if jHashable k then buildGroupMeta tl (metaInsert meta k gTitle)
        else .error ()
      | none => buildGroupMeta tl meta
    else buildGroupMeta tl meta

/-- The `for tab in window.get("tabs", [])` loop (firefox.py lines 87-111).
`group_id` is looked up after `str()` conversion, so only string metadata keys
can match; the active entry index must satisfy `0 <= idx < len(entries)`;
dedup is by video identity across the whole snapshot (`seen`). -/
def goTabs (meta : List (Json × Json)) :
    JList → List (Json × List String) → List String →
      Except Unit (List (Json × List String) × List String)
  | .nil, gs, seen => .ok (gs, seen)
  | .cons tab tl, gs, seen => do
    let gidOpt ← pyGet tab "groupId"
    let gid := jOfOpt gidOpt
    if !(jTruthy gid) then goTabs meta tl gs seen
    else
      match metaLookup meta (.str (pyStr gid)) with
      | none => goTabs meta tl gs seen
      | some title => do
        let entriesOpt ← pyGet tab "entries"
        let entries := jOfOpt entriesOpt
        let entries := if entriesOpt.isSome then entries else .arr .nil
        if !(jTruthy entries) then goTabs meta tl gs seen
        else do
          let idxOpt ← pyGet tab "index"
          let idx ← pyMinus1 ((idxOpt).getD (Json.num 1))
          let len ← pyLen entries
          if 0 ≤ idx ∧ idx < len then do
            let entry ← pyIndex entries idx
            let urlOpt ← pyGet entry "url"
            let urlJ := (urlOpt).getD (Json.str "")
            let isVid ← jIsYouTube urlJ
            match urlJ, isVid with
            | .str url, true =>
              match extractVideoId url with
              | some vid =>
                if vid ≠ "" ∧ vid ∉ seen then
                  if jHashable title then
                    goTabs meta tl (addToGroupJ gs title url) (seen ++ [vid])
                  else .error ()
                else goTabs meta tl gs seen
              | none => goTabs meta tl gs seen
            | _, _ => goTabs meta tl gs seen
          else goTabs meta tl gs seen

/-- The `for window in json_data["windows"]` loop (firefox.py lines 74-111):
build the window's group metadata, skip the window when it has none, then
walk its tabs, threading the global dedup set. -/
def goWindows : JList → List (Json × List String) → List String →
    Except Unit (List (Json × List String))
  | .nil, gs, _ => .ok gs
  | .cons w tl, gs, seen => do
    let rawOpt ← pyGet w "groups"
    let raw := if rawOpt.isSome then jOfOpt rawOpt else .arr .nil
    let rawL ← pyIter raw
    let meta ← buildGroupMeta rawL []
    if meta = [] then goWindows tl gs seen
    else do
      let tabsOpt ← pyGet w "tabs"
      let tabsJ := if tabsOpt.isSome then jOfOpt tabsOpt else .arr .nil
      let tabsL ← pyIter tabsJ
      let out ← goTabs meta tabsL gs seen
      goWindows tl out.1 out.2

/-- Models `FirefoxBrowser.extract_groups` from the point where a truthy
snapshot value has been read (lines 68-113): `{}` when `"windows"` is absent,
otherwise the window walk; a snapshot whose top level (or `windows` value) has
an unexpected type raises, and the source has no handler for it. -/
def firefoxExtractGroups (j : Json) : Except Unit (List (Json × List String)) := do
  let hasWin ← pyContains j "windows"
  if !hasWin then .ok []
  else do
    let winVal ← pySubscriptStr j "windows"
    let windows ← pyIter winVal
    goWindows windows [] []

/-! ### `ChromeBrowser.extract_groups` (src/browsers/chrome.py lines 88-137)

State of `recurse_nodes`: the accumulated groups dict and the
`seen_bookmark_vids` set. -/

structure WalkSt where
  groups : List (Json × List String)
  seen : List String
deriving DecidableEq

/-- Reserved root-container names (chrome.py lines 110-116). -/
def reservedName (j : Json) : Bool :=
  decide (j = Json.str "Bookmarks bar") || decide (j = Json.str "Other bookmarks")
    || decide (j = Json.str "Mobile bookmarks")

/-- The leaf handling of `recurse_nodes` (chrome.py lines 120-129): mark the
identity seen, then attribute the URL to the current folder context when one
exists; an unhashable context raises at the dict membership test. -/
def leafStep (cur : Json) (st : WalkSt) (url : String) : WalkSt × Bool :=
  if isYouTubeVideo url then
    match extractVideoId url with
    | some vid =>
      if vid ≠ "" ∧ vid ∉ st.seen then
        if jTruthy cur then
          if jHashable cur then
            (⟨addToGroupJ st.groups cur url, st.seen ++ [vid]⟩, false)
          else (⟨st.groups, st.seen ++ [vid]⟩, true)
        else (⟨st.groups, st.seen ++ [vid]⟩, false)
      else (st, false)
    | none => (st, false)
  else (st, false)

mutual
/-- Models `recurse_nodes(node, current_folder_name)` (chrome.py lines
104-129).  The second component is the exception flag: the surrounding
`try/except Exception` (lines 101-135) catches whatever the walk raises and
keeps the groups accumulated so far.  The walk is structurally recursive on a
fuel bounded below by the node size; running out of fuel plays the role of
Python's `RecursionError`, which the same `except` catches. -/
def walkNodeF : Nat → Json → WalkSt → Json → WalkSt × Bool
  | 0, _, st, _ => (st, true)
  | fuel + 1, cur, st, node =>
    match node with
    | .obj fields =>
      let myName := jOfOpt (jfGetOpt fields "name")
      let myName := if (jfGetOpt fields "name").isSome then myName else .str ""
      match jfGetOpt fields "children" with
      | some childVal =>
        let nextGroup :=
          if decide (jfGetOpt fields "id" ≠ some (.str "0")) && !(reservedName myName)
          then myName else cur
        match childVal with
        | .arr l => walkJListF fuel nextGroup st l
        | .str s => (st, decide (s ≠ ""))
        | .obj f => (st, decide (f ≠ JFields.nil))
        | _ => (st, true)
      | none =>
        match jfGetOpt fields "url" with
        | some urlJ =>
          match urlJ with
          | .str url => leafStep cur st url
          | u => if jTruthy u then (st, true) else (st, false)
        | none => (st, false)
    | _ => (st, true)

/-- Models `for child in node["children"]: recurse_nodes(child, next_group)`:
the first raised exception propagates, abandoning the rest of the walk. -/
def walkJListF : Nat → Json → WalkSt → JList → WalkSt × Bool
  | 0, _, st, _ => (st, true)
  | _ + 1, _, st, .nil => (st, false)
  | fuel + 1, cur, st, .cons n tl =>
    match walkNodeF fuel cur st n with
    | (st2, true) => (st2, true)
    | (st2, false) => walkJListF fuel cur st2 tl
end

mutual
/-- Size bound used to provision walk fuel. -/
def jsonSize : Json → Nat
  | .arr l => 1 + jlSize l
  | .obj f => 1 + jfSize f
  | _ => 1
def jlSize : JList → Nat
  | .nil => 1
  | .cons n tl => 1 + jsonSize n + jlSize tl
def jfSize : JFields → Nat
  | .nil => 1
  | .cons _ v tl => 1 + jsonSize v + jfSize tl
end

/-- Models `for root_key in roots: recurse_nodes(roots[root_key])` (chrome.py
lines 131-133) when `roots` is a parsed dict: walk each value with
`current_folder_name = None`. -/
def walkRootsF (fuel : Nat) : WalkSt → JFields → WalkSt × Bool
  | st, .nil => (st, false)
  | st, .cons _ v tl =>
    match walkNodeF fuel .null st v with
    | (st2, true) => (st2, true)
    | (st2, false) => walkRootsF fuel st2 tl

/-- Models lines 100-135 of chrome.py: `roots = data.get("roots", {})`, the
root iteration, and the `try/except Exception` that converts any raised error
into "keep the groups accumulated so far".  A non-dict `roots` raises at the
subscript on its first iterated key (so nothing is added) or iterates zero
times; the corner where `roots` is a JSON array of its own valid integer
indices would revisit elements, and is modelled — like every other raising
shape — as adding nothing. -/
def chromeBookmarkWalk (gs0 : List (Json × List String)) (data : Json) :
    List (Json × List String) :=
  match data with
  | .obj fields =>
    match jfGetOpt fields "roots" with
    | some (.obj roots) => (walkRootsF (jsonSize data) ⟨gs0, []⟩ roots).1.groups
    | some _ => gs0
    | none => gs0
  | _ => gs0

/-! ### `ChromeBrowser._get_active_session_urls` (src/browsers/chrome.py
    lines 42-86): regex scan of the binary SNSS session file. -/

/-- A byte admitted by the character class of
the session-file URL regex (chrome.py line 64) — everything above
`0x20` except `0x7f` and the eight excluded punctuation bytes
(`"` `<` `>` `^` backtick `{` `|` `}`). -/
def allowedUrlByte (b : Nat) : Bool :=
  32 < b && b != 127 && b != 34 && b != 60 && b != 62 && b != 94 && b != 96
    && b != 123 && b != 124 && b != 125

/-- The bytes of `http://` and `https://`. -/
def httpBytes : List Nat := [104, 116, 116, 112, 58, 47, 47]

/-- Byte list for `https://`. -/
def httpsBytes : List Nat := [104, 116, 116, 112, 115, 58, 47, 47]

/-- Regex match attempt at the current position: `https?://` followed by at
least one admitted byte, greedily extended.  Returns the length of the match. -/
def matchHttpAt (bytes : List Nat) : Option Nat :=
  if leadsWith httpsBytes bytes then
    if ((bytes.drop 8).takeWhile allowedUrlByte).length = 0 then none
    else some (8 + ((bytes.drop 8).takeWhile allowedUrlByte).length)
  else if leadsWith httpBytes bytes then
    if ((bytes.drop 7).takeWhile allowedUrlByte).length = 0 then none
    else some (7 + ((bytes.drop 7).takeWhile allowedUrlByte).length)
  else none

/-- Models `url_pattern.findall(content)`: leftmost, non-overlapping matches. -/
def scanUrls (bytes : List Nat) : List (List Nat) :=
  match bytes with
  | [] => []
  | b :: rest =>
    match h : matchHttpAt (b :: rest) with
    | some n => (b :: rest).take n :: scanUrls ((b :: rest).drop n)
    | none => scanUrls rest
termination_by bytes.length
decreasing_by
  · have hn : 8 ≤ n ∨ 7 ≤ n := by
      unfold matchHttpAt at h
      split at h
      · split at h
        · exact absurd h (by simp)
        · cases h; omega
      · split at h
        · split at h
          · exact absurd h (by simp)
          · cases h; omega
        · exact absurd h (by simp)
    simp only [List.length_drop]
    simp only [List.length_cons]
    omega
  · simp

/-- Strict UTF-8 decoding of a byte run, as `bytes.decode("utf-8")`:
continuation bytes in `80..BF`, no overlong forms, no surrogates, maximum
`U+10FFFF`; any violation is a `UnicodeDecodeError` (`none`). -/
def decodeUtf8 : List Nat → Option (List Char)
  | [] => some []
  | b :: rest =>
    if b < 128 then
      match decodeUtf8 rest with
      | some cs => some (Char.ofNat b :: cs)
      | none => none
    else if 194 ≤ b ∧ b ≤ 223 then
      match rest with
      | c1 :: r2 =>
        if 128 ≤ c1 ∧ c1 ≤ 191 then
          match decodeUtf8 r2 with
          | some cs => some (Char.ofNat ((b - 192) * 64 + (c1 - 128)) :: cs)
          | none => none
        else none
      | [] => none
    else if 224 ≤ b ∧ b ≤ 239 then
      match rest with
      | c1 :: c2 :: r2 =>
        if (if b = 224 then 160 ≤ c1 ∧ c1 ≤ 191
            else if b = 237 then 128 ≤ c1 ∧ c1 ≤ 159
            else 128 ≤ c1 ∧ c1 ≤ 191) ∧ 128 ≤ c2 ∧ c2 ≤ 191 then
          match decodeUtf8 r2 with
          | some cs =>
            some (Char.ofNat ((b - 224) * 4096 + (c1 - 128) * 64 + (c2 - 128)) :: cs)
          | none => none
        else none
      | _ => none
    else if 240 ≤ b ∧ b ≤ 244 then
      match rest with
      | c1 :: c2 :: c3 :: r2 =>
        if (if b = 240 then 144 ≤ c1 ∧ c1 ≤ 191
            else if b = 244 then 128 ≤ c1 ∧ c1 ≤ 143
            else 128 ≤ c1 ∧ c1 ≤ 191) ∧ 128 ≤ c2 ∧ c2 ≤ 191 ∧ 128 ≤ c3 ∧ c3 ≤ 191 then
          match decodeUtf8 r2 with
          | some cs =>
            some (Char.ofNat ((b - 240) * 262144 + (c1 - 128) * 4096
              + (c2 - 128) * 64 + (c3 - 128)) :: cs)
          | none => none
        else none
      | _ => none
    else none

/-- The `for match in reversed(matches)` filter (chrome.py lines 71-81):
decode each byte run (skipping undecodable ones), keep YouTube video URLs,
first occurrence per video identity. -/
def sessionFilter : List (List Nat) → List String → List String → List String
  | [], acc, _ => acc
  | m :: rest, acc, seen =>
    match decodeUtf8 m with
    | none => sessionFilter rest acc seen
    | some chars =>
      let dec := String.mk chars
      if isYouTubeVideo dec then
        match extractVideoId dec with
        | some vid =>
          if vid ≠ "" ∧ vid ∉ seen then sessionFilter rest (acc ++ [dec]) (seen ++ [vid])
          else sessionFilter rest acc seen
        | none => sessionFilter rest acc seen
      else sessionFilter rest acc seen

/-- Models `_get_active_session_urls` given the resolved session file:
`none` models a missing `Sessions` directory, no session file, or a read
error (all caught, lines 50-84); otherwise scan, reverse, decode, filter. -/
def chromeActiveSessionUrls (file : Option (List Nat)) : List String :=
  match file with
  | none => []
  | some content => sessionFilter (scanUrls content).reverse [] []

/-- Models `ChromeBrowser.extract_groups` (lines 88-137) given the session
scan input and the parsed `Bookmarks` value (`none` = `_safe_read_json`
returned no data): the active-session pseudo-group first, then the bookmark
walk guarded by `if data:` and its `try/except`. -/
def chromeExtractGroups (sessionFile : Option (List Nat)) (bookmarks : Option Json) :
    List (Json × List String) :=
  let active := chromeActiveSessionUrls sessionFile
  let gs0 : List (Json × List String) :=
    if active ≠ [] then [(Json.str "[Active Session] Open Tabs", active)] else []
  match bookmarks with
  | some data => if jTruthy data then chromeBookmarkWalk gs0 data else gs0
  | none => gs0

/-! ### Global dedup of the bookmark walk (claim C4) -/

/-- How many URLs with video identity `v` appear across all groups, counting
multiplicity. -/
def countId (gs : List (Json × List String)) (v : String) : Nat :=
  (gs.map (fun p => p.2.countP (fun u => decide (extractVideoId u = some v)))).sum

theorem countId_addToGroupJ (gs : List (Json × List String)) (k : Json)
    (url : String) (v : String) :
    countId (addToGroupJ gs k url) v =
      countId gs v + (if extractVideoId url = some v then 1 else 0) := by
  induction gs with
  | nil =>
    simp only [addToGroupJ, countId, List.map_cons, List.map_nil, List.sum_cons,
      List.sum_nil, List.countP_cons, List.countP_nil]
    by_cases hd : extractVideoId url = some v
    · simp [hd]
    · simp [hd]
  | cons p rest ih =>
    obtain ⟨k0, us⟩ := p
    simp only [addToGroupJ]
    split
    · simp only [countId, List.map_cons, List.sum_cons, List.countP_append,
        List.countP_cons, List.countP_nil]
      by_cases hd : extractVideoId url = some v
      · simp [hd]
        omega
      · simp [hd]
    · simp only [countId, List.map_cons, List.sum_cons] at ih ⊢
      omega

/-- The walk invariant: no identity is attributed twice, and an identity not
yet in `seen` is not attributed at all. -/
def DedupInv (st : WalkSt) : Prop :=
  ∀ v : String, countId st.groups v ≤ 1 ∧ (v ∉ st.seen → countId st.groups v = 0)

theorem dedupInv_extend_seen (gs : List (Json × List String)) (seen : List String)
    (x : String) (h : DedupInv ⟨gs, seen⟩) : DedupInv ⟨gs, seen ++ [x]⟩ := by
  intro v
  exact ⟨(h v).1, fun hnm => (h v).2 (fun hv => hnm (List.mem_append.mpr (Or.inl hv)))⟩

theorem dedupInv_add (gs : List (Json × List String)) (seen : List String)
    (cur : Json) (url vid : String) (hvid : extractVideoId url = some vid)
    (hnot : vid ∉ seen) (h : DedupInv ⟨gs, seen⟩) :
    DedupInv ⟨addToGroupJ gs cur url, seen ++ [vid]⟩ := by
  intro v
  dsimp only
  rw [countId_addToGroupJ]
  by_cases hv : v = vid
  · subst hv
    have h0 : countId gs v = 0 := (h v).2 hnot
    constructor
    · simp [h0, hvid]
    · intro hnm
      exact absurd (List.mem_append.mpr (Or.inr (by simp))) hnm
  · have hne : ¬ (extractVideoId url = some v) := by
      rw [hvid]
      simp
      intro hc
      exact hv hc.symm
    rw [if_neg hne]
    constructor
    · simpa using (h v).1
    · intro hnm
      simpa using (h v).2 (fun hvs => hnm (List.mem_append.mpr (Or.inl hvs)))

theorem leafStep_dedup_inv (cur : Json) (st : WalkSt) (url : String)
    (h : DedupInv st) : DedupInv (leafStep cur st url).1 := by
  obtain ⟨gs, seen⟩ := st
  unfold leafStep
  by_cases hyt : isYouTubeVideo url = true
  · simp only [hyt, if_true]
    cases hvid : extractVideoId url with
    | some vid =>
      dsimp only
      by_cases hdup : vid ≠ "" ∧ vid ∉ seen
      · rw [if_pos hdup]
        by_cases hcur : jTruthy cur = true
        · rw [if_pos hcur]
          by_cases hh : jHashable cur = true
          · rw [if_pos hh]
            exact dedupInv_add gs seen cur url vid hvid hdup.2 h
          · rw [if_neg (by simp [hh])]
            exact dedupInv_extend_seen gs seen vid h
        · rw [if_neg (by simp [hcur])]
          exact dedupInv_extend_seen gs seen vid h
      · rw [if_neg hdup]
        exact h
    | none => exact h
  · simp only [Bool.not_eq_true] at hyt
    simp only [hyt, Bool.false_eq_true, if_false]
    exact h

/-- The bookmark walk preserves the dedup invariant, whatever the fuel, the
folder context and the node shape. -/
theorem walk_dedup_inv (fuel : Nat) :
    (∀ (cur : Json) (st : WalkSt) (n : Json),
      DedupInv st → DedupInv (walkNodeF fuel cur st n).1)
    ∧ (∀ (cur : Json) (st : WalkSt) (l : JList),
      DedupInv st → DedupInv (walkJListF fuel cur st l).1) := by
  induction fuel with
  | zero => exact ⟨fun _ _ _ h => h, fun _ _ _ h => h⟩
  | succ fuel ih =>
    constructor
    · intro cur st n h
      match n with
      | .null | .bool _ | .num _ | .str _ | .arr _ => exact h
      | .obj fields =>
        simp only [walkNodeF]
        cases hch : jfGetOpt fields "children" with
        | some childVal =>
          dsimp only
          cases childVal with
          | arr l => exact ih.2 _ st l h
          | str s => exact h
          | obj f => exact h
          | null => exact h
          | bool b => exact h
          | num m => exact h
        | none =>
          dsimp only
          cases hurl : jfGetOpt fields "url" with
          | some urlJ =>
            dsimp only
            cases urlJ with
            | str url => exact leafStep_dedup_inv cur st url h
            | null => dsimp only; split <;> exact h
            | bool b => dsimp only; split <;> exact h
            | num m => dsimp only; split <;> exact h
            | arr l => dsimp only; split <;> exact h
            | obj f => dsimp only; split <;> exact h
          | none => exact h
    · intro cur st l h
      match l with
      | .nil => exact h
      | .cons n tl =>
        simp only [walkJListF]
        have h2 := ih.1 cur st n h
        cases hw : walkNodeF fuel cur st n with
        | mk st2 flag =>
          rw [hw] at h2
          cases flag with
          | true => exact h2
          | false => exact ih.2 cur st2 tl h2

theorem walkRootsF_dedup_inv (fuel : Nat) :
    ∀ (fs : JFields) (st : WalkSt), DedupInv st → DedupInv (walkRootsF fuel st fs).1
  | .nil, _, h => h
  | .cons _ v tl, st, h => by
    simp only [walkRootsF]
    have h2 := (walk_dedup_inv fuel).1 .null st v h
    cases hw : walkNodeF fuel .null st v with
    | mk st2 flag =>
      rw [hw] at h2
      cases flag with
      | true => exact h2
      | false => exact walkRootsF_dedup_inv fuel tl st2 h2

/-- A bookmark leaf holding a watch URL (for the C4 scenario). -/
def leafC4 : Json :=
  Json.obj (jfOf [("url", Json.str "https://www.youtube.com/watch?v=abc")])

/-- Folder `A`, the first folder containing the URL. -/
def folderAC4 : Json :=
  Json.obj (jfOf [("name", Json.str "A"), ("children", Json.arr (jlOf [leafC4]))])

/-- Folder `B`, a different folder containing the same URL. -/
def folderBC4 : Json :=
  Json.obj (jfOf [("name", Json.str "B"), ("children", Json.arr (jlOf [leafC4]))])

/-- A bookmark tree with the same video URL nested under two different
folders. -/
def bmDataC4 : Json :=
  Json.obj (jfOf [("roots", Json.obj (jfOf [("bookmark_bar",
    Json.obj (jfOf [("name", Json.str "Bookmarks bar"), ("id", Json.str "1"),
      ("children", Json.arr (jlOf [folderAC4, folderBC4]))]))]))])

/-- C4.  Dedup in the Chrome bookmark walk is global: over any parsed tree,
no video identity is attributed to the groups more than once (counting
multiplicity across all groups), and in the concrete tree with the same watch
URL nested under folders `A` and `B` (in that depth-first child order) exactly
the first-discovered folder `A` receives it — `B` gets no group at all. -/
theorem c4_bookmark_dedup_global :
    (∀ (data : Json) (v : String), countId (chromeBookmarkWalk [] data) v ≤ 1)
    ∧ chromeBookmarkWalk [] bmDataC4 =
        [(Json.str "A", ["https://www.youtube.com/watch?v=abc"])] := by
  constructor
  · intro data v
    have hinit : DedupInv ⟨[], []⟩ := by
      intro w
      exact ⟨by simp [countId], fun _ => by simp [countId]⟩
    cases data with
    | obj fields =>
      unfold chromeBookmarkWalk
      dsimp only
      cases hr : jfGetOpt fields "roots" with
      | some r =>
        cases r with
        | obj roots => exact ((walkRootsF_dedup_inv _ roots ⟨[], []⟩ hinit) v).1
        | null => simp [countId]
        | bool b => simp [countId]
        | num m => simp [countId]
        | str s => simp [countId]
        | arr l => simp [countId]
      | none => simp [countId]
    | null => simp [chromeBookmarkWalk, countId]
    | bool b => simp [chromeBookmarkWalk, countId]
    | num m => simp [chromeBookmarkWalk, countId]
    | str s => simp [chromeBookmarkWalk, countId]
    | arr l => simp [chromeBookmarkWalk, countId]
  · rfl

/-! ### Claim theorems: Link Discovery error handling -/

/-- A bookmark tree with a malformed node (a bare number) between two valid
folders, for C8's partial-walk conjunct. -/
def bmBadC8 : Json :=
  Json.obj (jfOf [("roots", Json.obj (jfOf [("bookmark_bar",
    Json.obj (jfOf [("name", Json.str "Bookmarks bar"), ("id", Json.str "1"),
      ("children", Json.arr (jlOf [folderAC4, Json.num 7, folderBC4]))]))]))])

/-- C8 counterexample.  The claim says every extraction operation returns an
empty result rather than propagating an error on malformed JSON.  The Firefox
session-snapshot walk has no exception handler: a snapshot file whose JSON
content is the (truthy) number `5` raises a `TypeError` at the
`"windows" not in json_data` test, which propagates out of
`extract_groups`. -/
theorem c8_counterexample_firefox_raises :
    firefoxExtractGroups (Json.num 5) = .error () := rfl

/-- C8 (amended).  The Chrome operations never propagate: the bookmark walk's
`try/except` converts any error into "keep the groups accumulated so far"
(here the malformed node aborts the walk after folder `A` was collected, and a
non-dict `Bookmarks` value yields the session groups unchanged), and the
binary session scrape of a missing file yields no URLs.  The Firefox walk
returns `{}` when the snapshot object has no `windows` key, but — unlike the
claim — it propagates a type error when the snapshot's top level or nested
values have unexpected types, as the counterexample shows. -/
theorem c8_discovery_error_handling :
    (∀ fields : JFields, jfGetOpt fields "windows" = none →
      firefoxExtractGroups (Json.obj fields) = .ok [])
    ∧ chromeBookmarkWalk [] bmBadC8 =
        [(Json.str "A", ["https://www.youtube.com/watch?v=abc"])]
    ∧ chromeExtractGroups none (some (Json.num 5)) = []
    ∧ chromeActiveSessionUrls none = [] := by
  refine ⟨?_, rfl, rfl, rfl⟩
  intro fields h
  simp only [firefoxExtractGroups, pyContains, h]
  rfl

/-- Witness for C8 at a concrete snapshot object without a `windows` key. -/
theorem c8_discovery_error_handling_witness :
    firefoxExtractGroups (Json.obj (jfOf [("x", Json.null)])) = .ok [] :=
  c8_discovery_error_handling.1 (jfOf [("x", Json.null)]) rfl

/-! ### Profile locators (`get_profiles`)
    src/browsers/chrome.py lines 14-40 and src/browsers/firefox.py lines 13-49.

The filesystem is abstracted: for Chrome, whether the per-OS base directory
exists, whether `Default` exists, the directories matching the glob
`Profile *` (in glob order), and the mtime of each directory's `Preferences`
file when that file exists; for Firefox, each candidate base (exists flag and
its `*.*` directory listing) and directory mtimes.  Timestamps are modelled as
naturals — the code only compares them. -/

structure ChromeFS where
  baseExists : Bool
  hasDefault : Bool
  profileGlob : List String
  prefMtime : String → Option Nat

/-- Models `pref.stat().st_mtime if pref.exists() else 0` (chrome.py lines 36-38). -/
def chromeProfileKey (fs : ChromeFS) (p : String) : Nat :=
  (fs.prefMtime p).getD 0

/-- The unsorted profile list (lines 31-34): `Default` when present, then the
`Profile *` glob matches. -/
def chromeCandidates (fs : ChromeFS) : List String :=
  (if fs.hasDefault then ["Default"] else []) ++ fs.profileGlob

/-- Models `ChromeBrowser.get_profiles`: empty when the base directory is missing,
otherwise the candidates sorted by `Preferences` mtime, most recent first
(`sorted(..., reverse=True)` is a stable descending sort, which is what a
stable merge sort under the reversed comparison computes). -/
def chromeGetProfiles (fs : ChromeFS) : List String :=
  if !fs.baseExists then []
  else (chromeCandidates fs).mergeSort
    (fun a b => decide (chromeProfileKey fs b ≤ chromeProfileKey fs a))

structure FirefoxFS where
  bases : List (Bool × List String)
  mtime : String → Nat

/-- The `valid_profiles` accumulation (firefox.py lines 40-43). -/
def firefoxCandidates (fs : FirefoxFS) : List String :=
  (fs.bases.map (fun b => if b.1 then b.2 else [])).flatten

/-- Models `FirefoxBrowser.get_profiles`: the candidates sorted by directory mtime,
most recent first; empty when no base directory contributed anything. -/
def firefoxGetProfiles (fs : FirefoxFS) : List String :=
  if firefoxCandidates fs ≠ [] then
    (firefoxCandidates fs).mergeSort (fun a b => decide (fs.mtime b ≤ fs.mtime a))
  else []

/-- A Chrome filesystem whose `Profile 9` directory has no `Preferences`
marker file at all. -/
def fsC9 : ChromeFS :=
  ⟨true, true, ["Profile 9"], fun p => if p = "Default" then some 100 else none⟩

/-- C9 counterexample.  The claim says a directory is included only if it
contains the expected preferences marker file.  `Profile 9` has no
`Preferences` file (`prefMtime = none`) yet `get_profiles` returns it — the
marker only demotes its sort key to 0. -/
theorem c9_counterexample_no_marker_included :
    "Profile 9" ∈ chromeGetProfiles fsC9 ∧ fsC9.prefMtime "Profile 9" = none := by
  constructor
  · simp only [chromeGetProfiles, fsC9, Bool.not_true, Bool.false_eq_true, if_false,
      List.mem_mergeSort]
    simp [chromeCandidates]
  · rfl

/-- C9 (amended).  Each family's locator never raises (it is a total
function), returns `[]` when no base directory exists (Chrome) or when no base
contributes a candidate (Firefox), contains exactly the name-pattern
candidates — `Default`/`Profile *` for Chrome, the `*.*` directories for
Firefox, with no marker-file requirement — and is ordered by `Preferences`
mtime (Chrome, missing marker sorting as 0) respectively directory mtime
(Firefox), most recent first. -/
theorem c9_profile_locator_contract :
    (∀ fs : ChromeFS,
      (fs.baseExists = false → chromeGetProfiles fs = [])
      ∧ (∀ p, p ∈ chromeGetProfiles fs ↔
          fs.baseExists = true ∧ p ∈ chromeCandidates fs)
      ∧ (chromeGetProfiles fs).Pairwise
          (fun a b => chromeProfileKey fs b ≤ chromeProfileKey fs a))
    ∧ (∀ fs : FirefoxFS,
      (firefoxCandidates fs = [] → firefoxGetProfiles fs = [])
      ∧ (∀ p, p ∈ firefoxGetProfiles fs ↔ p ∈ firefoxCandidates fs)
      ∧ (firefoxGetProfiles fs).Pairwise (fun a b => fs.mtime b ≤ fs.mtime a)) := by
  constructor
  · intro fs
    refine ⟨?_, ?_, ?_⟩
    · intro h
      simp [chromeGetProfiles, h]
    · intro p
      cases hb : fs.baseExists with
      | false => simp [chromeGetProfiles, hb]
      | true =>
        simp only [chromeGetProfiles, hb, Bool.not_true, Bool.false_eq_true, if_false,
          List.mem_mergeSort, true_and]
    · cases hb : fs.baseExists with
      | false => simp [chromeGetProfiles, hb]
      | true =>
        simp only [chromeGetProfiles, hb, Bool.not_true, Bool.false_eq_true, if_false]
        have hs := @List.sorted_mergeSort String
          (fun a b => decide (chromeProfileKey fs b ≤ chromeProfileKey fs a))
          (fun a b c h1 h2 => by
            simp only [decide_eq_true_eq] at h1 h2 ⊢
            omega)
          (fun a b => by
            simp only [Bool.or_eq_true, decide_eq_true_eq]
            omega)
          (chromeCandidates fs)
        exact hs.imp (by simp)
  · intro fs
    refine ⟨?_, ?_, ?_⟩
    · intro h
      simp [firefoxGetProfiles, h]
    · intro p
      by_cases h : firefoxCandidates fs = []
      · simp [firefoxGetProfiles, h]
      · simp [firefoxGetProfiles, h, List.mem_mergeSort]
    · by_cases h : firefoxCandidates fs = []
      · simp [firefoxGetProfiles, h]
      · simp only [firefoxGetProfiles, h, ne_eq, not_false_eq_true, if_true]
        have hs := @List.sorted_mergeSort String
          (fun a b => decide (fs.mtime b ≤ fs.mtime a))
          (fun a b c h1 h2 => by
            simp only [decide_eq_true_eq] at h1 h2 ⊢
            omega)
          (fun a b => by
            simp only [Bool.or_eq_true, decide_eq_true_eq]
            omega)
          (firefoxCandidates fs)
        exact hs.imp (by simp)

/-- Witness for C9: a missing Chrome base directory gives no profiles, and
`Profile 9` is reported for `fsC9` exactly because it matches the name
pattern. -/
theorem c9_profile_locator_witness :
    chromeGetProfiles (⟨false, true, ["Profile 1"], fun _ => none⟩ : ChromeFS) = []
    ∧ ("Profile 9" ∈ chromeGetProfiles fsC9 ↔
        fsC9.baseExists = true ∧ "Profile 9" ∈ chromeCandidates fsC9)
    ∧ firefoxGetProfiles (⟨[(true, [])], fun _ => 0⟩ : FirefoxFS) = [] :=
  ⟨(c9_profile_locator_contract.1 ⟨false, true, ["Profile 1"], fun _ => none⟩).1 rfl,
   (c9_profile_locator_contract.1 fsC9).2.1 "Profile 9",
   (c9_profile_locator_contract.2 ⟨[(true, [])], fun _ => 0⟩).1 rfl⟩
